import Mathlib

/-!
Verification development for the Auto-extensions-manager repository.

Two cores are embedded:

* the URL-pattern matching engine (`url-matcher.ts` — the implementation file
  is not part of the available sources, only its test suite and callers, so the
  definitions in that section are modelled from the specification, §4.1–§4.3);
* the profile/state reconciliation engine (`extension-state-manager.ts`,
  available in the sources), embedded as explicit state passing over a `Sys`
  record together with a log of the requests issued to the external component
  controller.

JavaScript-specific semantics that matter are modelled explicitly: the
truthiness test `if (x)` on a `string | null` value is false both for `null`
and for the empty string, which the state manager relies on when it guards
restore with `currentState.activeProfileId && ...`.
-/

namespace AutoExt

/-! ## A small regular-expression engine (Brzozowski derivatives)

The pattern compiler of the spec produces an anchored compiled matcher; we
represent compiled matchers as a regular-expression AST matched via
derivatives, which is executable and total. -/

/-- Regular-expression AST for compiled matchers.  `dot` matches any single
character (the spec's "arbitrary host-label characters" include `.`, since
`example.*` must match `example.co.uk`). -/
inductive Rx where
  | emp : Rx
  | eps : Rx
  | char : Char → Rx
  | dot : Rx
  | seq : Rx → Rx → Rx
  | alt : Rx → Rx → Rx
  | star : Rx → Rx
deriving DecidableEq

/-- Does the regular expression accept the empty string? -/
def nullable : Rx → Bool
  | .emp => false
  | .eps => true
  | .char _ => false
  | .dot => false
  | .seq a b => nullable a && nullable b
  | .alt a b => nullable a || nullable b
  | .star _ => true

/-- Brzozowski derivative of a regular expression by one character. -/
def deriv : Rx → Char → Rx
  | .emp, _ => .emp
  | .eps, _ => .emp
  | .char c, x => if x = c then .eps else .emp
  | .dot, _ => .eps
  | .seq a b, x =>
      if nullable a then .alt (.seq (deriv a x) b) (deriv b x)
      else .seq (deriv a x) b
  | .alt a b, x => .alt (deriv a x) (deriv b x)
  | .star a, x => .seq (deriv a x) (.star a)

/-- Anchored (whole-string) match of a compiled expression. -/
def rxMatch (r : Rx) (s : String) : Bool :=
  nullable (s.toList.foldl deriv r)

/-- One-or-more arbitrary characters (the translation of a non-leading `*`
in a host wildcard). -/
def rxPlusAny : Rx := .seq .dot (.star .dot)

/-! ## Pattern Compiler (modelled from the spec)

`source/lib/url-matcher.ts` is not among the available source files (only its
test suite `url-matcher.test.ts` and its callers are), so the whole section is
modelled from the specification §4.1. -/

/-- Modelled from the spec: body of a host-wildcard pattern — literal
characters match themselves, a `*` matches one-or-more arbitrary host
characters (multi-label matches allowed), anchored by construction. -/
def compileHostBody : List Char → Rx
  | [] => .eps
  | '*' :: rest => .seq rxPlusAny (compileHostBody rest)
  | c :: rest => .seq (.char c) (compileHostBody rest)

/-- Modelled from the spec: `hostWildcardToRegex` from `url-matcher.ts` (file
absent from the sources).  A leading `*.` or `.` means "this domain or any
subdomain"; a leading `**.` means "any subdomain but not the bare domain
itself"; any other `*` matches one-or-more arbitrary characters.  Literals are
matched case-insensitively, modelled by lowercasing the pattern here and the
host in `matchUrl`; the compiled matcher is anchored over the whole host. -/
def hostWildcardToRegex (pattern : String) : Rx :=
  match pattern.toList.map Char.toLower with
  | '*' :: '*' :: '.' :: rest =>
      .seq (.seq rxPlusAny (.char '.')) (compileHostBody rest)
  | '*' :: '.' :: rest =>
      .alt (compileHostBody rest)
        (.seq (.seq rxPlusAny (.char '.')) (compileHostBody rest))
  | '.' :: rest =>
      .alt (compileHostBody rest)
        (.seq (.seq rxPlusAny (.char '.')) (compileHostBody rest))
  | cs => compileHostBody cs

/-- Modelled from the spec: body of a url-wildcard pattern — `*` matches any
sequence of characters (including the empty one), everything else is
literal. -/
def compileUrlBody : List Char → Rx
  | [] => .eps
  | '*' :: rest => .seq (.star .dot) (compileUrlBody rest)
  | c :: rest => .seq (.char c) (compileUrlBody rest)

/-- Modelled from the spec: `urlWildcardToRegex` from `url-matcher.ts` (file
absent from the sources); anchored over the full URL string. -/
def urlWildcardToRegex (pattern : String) : Rx :=
  compileUrlBody pattern.toList

/-- Helper for `extractHost`: locate the first `://` separator and return what
follows it, if any. -/
def afterSchemeSep : List Char → Option (List Char)
  | [] => none
  | ':' :: '/' :: '/' :: rest => some rest
  | _ :: rest => afterSchemeSep rest

/-- Modelled from the spec: `extractHost` from `url-matcher.ts` (file absent
from the sources) — best-effort URL parse; take the authority after `://` up
to the first `/`, `:`, `?` or `#`; if the string has no scheme separator it is
returned unchanged (non-URL inputs fall back to the raw string). -/
def extractHost (url : String) : String :=
  match afterSchemeSep url.toList with
  | some rest =>
      String.mk (rest.takeWhile fun c =>
        !(c = '/' || c = ':' || c = '?' || c = '#'))
  | none => url

/-- Modelled from the spec: structural validity scan approximating JavaScript
`RegExp` compilation (`url-matcher.ts` is absent from the sources).  Tracks
group-nesting depth and whether the scanner is inside a character class, and
rejects a trailing backslash, an unmatched `)`, and an unterminated group or
class; `d` is the open-group depth, `k` is true inside a class. -/
def regexScan : List Char → Nat → Bool → Bool
  | [], 0, false => true
  | [], _, _ => false
  | '\\' :: [], _, _ => false
  | '\\' :: _ :: rest, d, k => regexScan rest d k
  | ']' :: rest, d, true => regexScan rest d false
  | '[' :: rest, d, false => regexScan rest d true
  | '(' :: rest, d, false => regexScan rest (d + 1) false
  | ')' :: _, 0, false => false
  | ')' :: rest, d + 1, false => regexScan rest d false
  | _ :: rest, d, k => regexScan rest d k

/-- Modelled from the spec: does the pattern compile as a regular
expression? -/
def regexCompiles (p : String) : Bool :=
  regexScan p.toList 0 false

/-- Helper for the regex dialect: parse a subset of regular-expression syntax
(literals, `.`, postfix `*` `+` `?`, backslash escapes) into the AST; the
accumulator holds the atoms parsed so far in reverse. -/
def parseRegexAtoms : List Char → List Rx → Option (List Rx)
  | [], acc => some acc
  | '*' :: rest, a :: acc => parseRegexAtoms rest (.star a :: acc)
  | '+' :: rest, a :: acc => parseRegexAtoms rest (.seq a (.star a) :: acc)
  | '?' :: rest, a :: acc => parseRegexAtoms rest (.alt a .eps :: acc)
  | '*' :: _, [] => none
  | '+' :: _, [] => none
  | '?' :: _, [] => none
  | '.' :: rest, acc => parseRegexAtoms rest (.dot :: acc)
  | '\\' :: c :: rest, acc => parseRegexAtoms rest (.char c :: acc)
  | '\\' :: [], _ => none
  | c :: rest, acc => parseRegexAtoms rest (.char c :: acc)

/-- Sequence a reversed list of atoms back into one expression. -/
def seqAtoms (acc : List Rx) : Rx :=
  acc.foldl (fun r a => .seq a r) .eps

/-- Modelled from the spec: case-insensitive JavaScript `RegExp.test` search
semantics for a subset of the regex dialect (`url-matcher.ts` is absent from
the sources; no claim depends on the exact dialect).  A leading `^` / trailing
`$` anchor the match; otherwise the pattern may match anywhere. -/
def jsRegexTest (pattern s : String) : Bool :=
  let cs := pattern.toList.map Char.toLower
  let anchoredStart := cs.head? = some '^'
  let cs := if anchoredStart then cs.tail else cs
  let anchoredEnd := cs.getLast? = some '$'
  let cs := if anchoredEnd then cs.dropLast else cs
  match parseRegexAtoms cs [] with
  | none => false
  | some acc =>
      let core := seqAtoms acc
      let core := if anchoredStart then core else .seq (.star .dot) core
      let core := if anchoredEnd then core else .seq core (.star .dot)
      rxMatch core (String.mk (s.toList.map Char.toLower))

/-! ## Data model (from `source/lib/types.ts` via the design document and the
specification §3) -/

/-- The three pattern dialects. -/
inductive MatchType where
  | hostWildcard : MatchType
  | urlWildcard : MatchType
  | regex : MatchType
deriving DecidableEq

/-- One URL-matching rule within a profile. -/
structure MatchCondition where
  id : String
  type : MatchType
  pattern : String
  enabled : Bool
deriving DecidableEq

/-- Desired state for one component. -/
inductive TargetState where
  | enable : TargetState
  | disable : TargetState
  | keep : TargetState
deriving DecidableEq

/-- Target state for one component within a profile. -/
structure ExtensionStateConfig where
  extensionId : String
  targetState : TargetState
deriving DecidableEq

/-- A profile group. -/
structure ProfileGroup where
  id : String
  name : String
  enabled : Bool
  priority : Int
  conditions : List MatchCondition
  extensionStates : List ExtensionStateConfig
deriving DecidableEq

/-- Modelled from the spec: `matchUrl` from `url-matcher.ts` (file absent from
the sources) — a disabled condition never matches; host-wildcard tests the
extracted host (lowercased, matching the case-insensitive compiled regex),
url-wildcard and regex test the full URL string. -/
def matchUrl (url : String) (c : MatchCondition) : Bool :=
  if !c.enabled then false
  else
    match c.type with
    | .hostWildcard =>
        rxMatch (hostWildcardToRegex c.pattern)
          (String.mk ((extractHost url).toList.map Char.toLower))
    | .urlWildcard => rxMatch (urlWildcardToRegex c.pattern) url
    | .regex => jsRegexTest c.pattern url

/-- Modelled from the spec: `validatePattern` from `url-matcher.ts` (file
absent from the sources) — a non-empty error string exactly for an
empty/whitespace-only pattern (any type) and for a regex pattern that fails to
compile; every other input is accepted. -/
def validatePattern (pattern : String) (t : MatchType) : Option String :=
  if pattern.toList.all Char.isWhitespace then some "Pattern cannot be empty"
  else
    match t with
    | .regex =>
        if regexCompiles pattern then none
        else some "Invalid regular expression"
    | _ => none

/-! ## Profile Resolver (modelled from the spec §4.3) -/

/-- Modelled from the spec: `matchProfile` from `url-matcher.ts` (file absent
from the sources) — true iff the profile is enabled and at least one condition
matches (logical OR). -/
def matchProfile (url : String) (p : ProfileGroup) : Bool :=
  p.enabled && p.conditions.any (fun c => matchUrl url c)

/-- Descending-priority order used to rank candidate profiles. -/
def priorityGE (a b : ProfileGroup) : Prop := b.priority ≤ a.priority

instance : DecidableRel priorityGE := fun a b =>
  inferInstanceAs (Decidable (b.priority ≤ a.priority))

/-- Modelled from the spec: `findMatchingProfile` from `url-matcher.ts` (file
absent from the sources) — order the profiles by descending priority (stable)
and return the first one that matches; `matchProfile` already confines the
search to enabled profiles. -/
def findMatchingProfile (url : String) (profiles : List ProfileGroup) :
    Option ProfileGroup :=
  (profiles.insertionSort priorityGE).find? (fun p => matchProfile url p)

/-! ## State Transition Manager (from `extension-state-manager.ts`)

The manager is embedded as explicit state passing.  The external component
controller (the `chrome.management` API together with the missing
`management.ts` wrapper) is an out-of-scope collaborator per the spec §6 and
is modelled as a world of extensions plus a set of ids that refuse changes;
every request issued to it is recorded in a log, so that claims about *which*
requests are made (snapshot reads and state writes) are statements about that
log. -/

/-- Point-in-time snapshot of one component's enabled flag
(`SavedExtensionState` in `types.ts`). -/
structure SavedExtensionState where
  extensionId : String
  wasEnabled : Bool
deriving DecidableEq

/-- The process-wide transient state (`ProfileMatchState` in `types.ts`). -/
structure ProfileMatchState where
  activeProfileId : Option String
  savedStates : List SavedExtensionState
  lastMatchedUrl : Option String
deriving DecidableEq

/-- The Idle value of `ProfileMatchState` — the initial value of
`currentState` in `extension-state-manager.ts` and the value written by every
reset. -/
def idleState : ProfileMatchState :=
  { activeProfileId := none, savedStates := [], lastMatchedUrl := none }

/-- One installed extension as reported by the component controller
(`chrome.management.getAll`). -/
structure Ext where
  id : String
  enabled : Bool
deriving DecidableEq

/-- The external component controller: the enumerable world of extensions and
the ids that refuse to change (e.g. policy-locked).  Modelled from the spec
§6 (`management.ts` is not among the available sources). -/
structure Controller where
  exts : List Ext
  locked : List String
deriving DecidableEq

/-- Modelled from the spec: `setExtensionEnabledSafe(id, enabled,
{swallow: true})` from `management.ts` (file absent from the sources) — asks
the controller to set a component's enabled flag; never raises, returns
whether the change succeeded; a refused or unknown component is left
unchanged. -/
def setEnabledSafe (c : Controller) (extId : String) (e : Bool) :
    Controller × Bool :=
  if c.locked.contains extId || ((c.exts.find? fun x => x.id == extId).isNone)
  then (c, false)
  else
    ({ c with
        exts := c.exts.map fun x =>
          if x.id == extId then { x with enabled := e } else x },
      true)

/-- One request issued to the component controller: the enumeration read used
for snapshots, or a state write. -/
inductive CtrlCall where
  | getAll : CtrlCall
  | set : String → Bool → CtrlCall
deriving DecidableEq

/-- Whole-system state threaded through the manager's operations: the shared
`ProfileMatchState`, the controller world, and the log of requests issued so
far. -/
structure Sys where
  state : ProfileMatchState
  ctrl : Controller
  log : List CtrlCall
deriving DecidableEq

/-- A system at process start: Idle state, no requests issued yet. -/
def Sys.start (c : Controller) : Sys :=
  { state := idleState, ctrl := c, log := [] }

/-- JavaScript truthiness of a `string | null` value: `null` and the empty
string are both falsy.  `extension-state-manager.ts` guards both restore
paths with bare truthiness tests on `currentState.activeProfileId`. -/
def truthy : Option String → Bool
  | none => false
  | some s => !(s == "")

/-- Function `saveCurrentStates` (lines 46–71 of `extension-state-manager.ts`) as a
pure function of the enumeration returned by `chrome.management.getAll`: keep
the non-`keep` configs, and for each one, in config-list order, look its id up
in the enumeration; ids the controller does not report are skipped. -/
def saveCurrentStates (world : List Ext)
    (extensionConfigs : List ExtensionStateConfig) : List SavedExtensionState :=
  let extensionsToSave :=
    (extensionConfigs.filter fun config => !(config.targetState == .keep)).map
      fun config => config.extensionId
  if extensionsToSave.isEmpty then []
  else
    extensionsToSave.foldl
      (fun savedStates extId =>
        match world.find? fun e => e.id == extId with
        | some ext => savedStates ++ [⟨extId, ext.enabled⟩]
        | none => savedStates)
      []

/-- Running `saveCurrentStates` against the live controller; the enumeration read
(`chrome.management.getAll`) is issued — and logged — only when there is at
least one non-`keep` config, matching the early return in the source. -/
def saveCurrentStatesRun (extensionConfigs : List ExtensionStateConfig)
    (s : Sys) : List SavedExtensionState × Sys :=
  let extensionsToSave :=
    (extensionConfigs.filter fun config => !(config.targetState == .keep)).map
      fun config => config.extensionId
  if extensionsToSave.isEmpty then ([], s)
  else
    (saveCurrentStates s.ctrl.exts extensionConfigs,
      { s with log := s.log ++ [.getAll] })

/-- One iteration of the restore loop: request that the component be set back
to its saved `wasEnabled` flag (`{swallow: true}`), logging the request. -/
def restoreStep (s : Sys) (saved : SavedExtensionState) : Sys :=
  { s with
    ctrl := (setEnabledSafe s.ctrl saved.extensionId saved.wasEnabled).1
    log := s.log ++ [.set saved.extensionId saved.wasEnabled] }

/-- Function `restoreOriginalStates` (lines 132–161 of `extension-state-manager.ts`):
if the JS-truthiness check on `activeProfileId` fails (null or empty string)
or nothing is snapshotted, reset to Idle directly with no controller call;
otherwise issue one set-request per saved state, then reset to Idle
unconditionally. -/
def restoreOriginalStates (s : Sys) : Sys :=
  if !truthy s.state.activeProfileId || s.state.savedStates.length == 0 then
    { s with state := idleState }
  else
    { s.state.savedStates.foldl restoreStep s with state := idleState }

/-- One iteration of the apply loop (lines 100–112): skip `keep` configs; for
the others request the target enabled value, logging the request. -/
def applyStep (s : Sys) (config : ExtensionStateConfig) : Sys :=
  if config.targetState == .keep then s
  else
    { s with
      ctrl :=
        (setEnabledSafe s.ctrl config.extensionId
          (config.targetState == .enable)).1
      log := s.log ++ [.set config.extensionId (config.targetState == .enable)] }

/-- The apply loop over all of a profile's configs. -/
def applyStatesLoop (configs : List ExtensionStateConfig) (s : Sys) : Sys :=
  configs.foldl applyStep s

/-- Function `applyProfileStates` (lines 76–127 of `extension-state-manager.ts`):
restore first when a (JS-truthy) different profile is active; if the profile
is already active only `lastMatchedUrl` is updated and nothing else happens;
otherwise snapshot, apply each non-`keep` target, and commit the new
`ProfileMatchState`. -/
def applyProfileStates (profile : ProfileGroup) (url : String) (s : Sys) :
    Sys :=
  let s :=
    if truthy s.state.activeProfileId &&
        !(s.state.activeProfileId == some profile.id) then
      restoreOriginalStates s
    else s
  if s.state.activeProfileId == some profile.id then
    { s with state := { s.state with lastMatchedUrl := some url } }
  else
    let saved := saveCurrentStatesRun profile.extensionStates s
    { applyStatesLoop profile.extensionStates saved.2 with
      state :=
        { activeProfileId := some profile.id
          savedStates := saved.1
          lastMatchedUrl := some url } }

/-- Function `shouldRestoreStates` (lines 167–183): pure decision helper; the URL
parameter is unused by the source body. -/
def shouldRestoreStates (_newUrl : String)
    (matchingProfile : Option ProfileGroup) (s : Sys) : Bool :=
  if !truthy s.state.activeProfileId then false
  else
    match matchingProfile with
    | none => true
    | some p => !(some p.id == s.state.activeProfileId)

/-! ## Order instances and concrete fixtures used by the witnesses and
counterexamples -/

instance : IsTotal ProfileGroup priorityGE :=
  ⟨fun a b => le_total b.priority a.priority⟩

instance : IsTrans ProfileGroup priorityGE :=
  ⟨fun _ _ _ hab hbc => le_trans hbc hab⟩

/-- An enabled host-wildcard condition for `*.example.com`. -/
def exampleCondition : MatchCondition :=
  { id := "c1", type := .hostWildcard, pattern := "*.example.com"
    enabled := true }

/-- A matching profile of priority 1 (mirrors the resolver test fixture). -/
def lowPriorityProfile : ProfileGroup :=
  { id := "low", name := "Low Priority", enabled := true, priority := 1
    conditions := [exampleCondition], extensionStates := [] }

/-- A matching profile of priority 10 (mirrors the resolver test fixture). -/
def highPriorityProfile : ProfileGroup :=
  { id := "high", name := "High Priority", enabled := true, priority := 10
    conditions := [exampleCondition], extensionStates := [] }

/-- An enabled profile with no conditions. -/
def emptyConditionsProfile : ProfileGroup :=
  { id := "empty", name := "Empty Profile", enabled := true, priority := 5
    conditions := [], extensionStates := [] }

/-- A profile that disables extension `x`. -/
def c1Profile : ProfileGroup :=
  { id := "p1", name := "P1", enabled := true, priority := 1
    conditions := [], extensionStates := [⟨"x", .disable⟩] }

/-- A profile identical to `c1Profile` except that its id is the empty string,
which is falsy under the JavaScript truthiness checks of the state manager. -/
def emptyIdProfile : ProfileGroup :=
  { id := "", name := "Anon", enabled := true, priority := 1
    conditions := [], extensionStates := [⟨"x", .disable⟩] }

/-- A controller world with one enabled extension `x` and nothing locked. -/
def c1Controller : Controller := { exts := [⟨"x", true⟩], locked := [] }

/-- A controller world with two enabled extensions `x` and `y`. -/
def controllerXY : Controller :=
  { exts := [⟨"x", true⟩, ⟨"y", true⟩], locked := [] }

/-- A profile that disables extension `y` (the switch target). -/
def profileB : ProfileGroup :=
  { id := "b", name := "B", enabled := true, priority := 1
    conditions := [], extensionStates := [⟨"y", .disable⟩] }

/-- A profile that disables extension `x` (the switch origin). -/
def profileA : ProfileGroup :=
  { id := "a", name := "A", enabled := true, priority := 1
    conditions := [], extensionStates := [⟨"x", .disable⟩] }

/-- The system after `profileA` was applied from Idle: `a` is active, `x` is
disabled and snapshotted as previously enabled. -/
def sysActiveA : Sys := applyProfileStates profileA "u1" (Sys.start controllerXY)

/-- The reachable system after `emptyIdProfile` was applied from Idle: the
recorded active profile id is the empty string and `x` was snapshotted. -/
def sysActiveEmptyId : Sys :=
  applyProfileStates emptyIdProfile "u1" (Sys.start c1Controller)

/-- A profile with one config the controller reports (`x`) and one it does not
(`ghost`). -/
def ghostProfile : ProfileGroup :=
  { id := "g", name := "G", enabled := true, priority := 1
    conditions := [], extensionStates := [⟨"x", .disable⟩, ⟨"ghost", .enable⟩] }

/-! ## Supporting lemmas about the state manager -/

/-- Restoring always resets the shared state to Idle, whichever branch is
taken. -/
theorem restore_state (s : Sys) : (restoreOriginalStates s).state = idleState := by
  unfold restoreOriginalStates
  split <;> rfl

/-- The restore loop issues exactly one set-request per saved state, in
order. -/
theorem restoreFold_log (l : List SavedExtensionState) (s : Sys) :
    (l.foldl restoreStep s).log =
      s.log ++ l.map fun sv => CtrlCall.set sv.extensionId sv.wasEnabled := by
  induction l generalizing s with
  | nil => simp
  | cons a t ih => simp [restoreStep, ih]

/-- When the JS-truthiness check passes, the requests issued by a restore are
exactly one set-request per saved state, appended to the existing log. -/
theorem restore_log (s : Sys) (h : truthy s.state.activeProfileId = true) :
    (restoreOriginalStates s).log =
      s.log ++ s.state.savedStates.map
        fun sv => CtrlCall.set sv.extensionId sv.wasEnabled := by
  unfold restoreOriginalStates
  cases hs : s.state.savedStates with
  | nil => simp [h, hs]
  | cons a t => simp [h, hs, restoreFold_log, restoreStep]

/-- The apply loop leaves the shared state untouched. -/
theorem applyLoop_state (configs : List ExtensionStateConfig) (s : Sys) :
    (applyStatesLoop configs s).state = s.state := by
  induction configs generalizing s with
  | nil => rfl
  | cons c t ih =>
      simp only [applyStatesLoop, List.foldl_cons] at *
      rw [ih]
      unfold applyStep
      split <;> rfl

/-- The apply loop issues exactly one set-request per non-`keep` config, in
config-list order. -/
theorem applyLoop_log (configs : List ExtensionStateConfig) (s : Sys) :
    (applyStatesLoop configs s).log =
      s.log ++ (configs.filter fun c => !(c.targetState == TargetState.keep)).map
        fun c => CtrlCall.set c.extensionId (c.targetState == TargetState.enable) := by
  induction configs generalizing s with
  | nil => simp [applyStatesLoop]
  | cons c t ih =>
      simp only [applyStatesLoop, List.foldl_cons] at *
      by_cases hk : c.targetState = TargetState.keep
      · simp [applyStep, hk, ih]
      · simp [applyStep, hk, ih]

/-- Running the snapshot against the live controller returns the pure
snapshot of the controller's enumeration. -/
theorem saveRun_fst (cfgs : List ExtensionStateConfig) (s : Sys) :
    (saveCurrentStatesRun cfgs s).1 = saveCurrentStates s.ctrl.exts cfgs := by
  unfold saveCurrentStatesRun saveCurrentStates
  by_cases h :
      ((cfgs.filter fun config => !(config.targetState == TargetState.keep)).map
        fun config => config.extensionId).isEmpty = true
  · simp [h]
  · simp [h]

/-- The snapshot read leaves the shared state untouched. -/
theorem saveRun_state (cfgs : List ExtensionStateConfig) (s : Sys) :
    (saveCurrentStatesRun cfgs s).2.state = s.state := by
  unfold saveCurrentStatesRun
  by_cases h :
      ((cfgs.filter fun config => !(config.targetState == TargetState.keep)).map
        fun config => config.extensionId).isEmpty = true
  · simp [h]
  · simp [h]

/-- The snapshot read leaves the controller world untouched. -/
theorem saveRun_ctrl (cfgs : List ExtensionStateConfig) (s : Sys) :
    (saveCurrentStatesRun cfgs s).2.ctrl = s.ctrl := by
  unfold saveCurrentStatesRun
  by_cases h :
      ((cfgs.filter fun config => !(config.targetState == TargetState.keep)).map
        fun config => config.extensionId).isEmpty = true
  · simp [h]
  · simp [h]

/-- The inner fold of `saveCurrentStates` appends, in order, one snapshot
entry per id found in the enumeration. -/
theorem saveFold_go (world : List Ext) (ids : List String)
    (acc : List SavedExtensionState) :
    (ids.foldl
      (fun savedStates extId =>
        match world.find? fun e => e.id == extId with
        | some ext => savedStates ++ [⟨extId, ext.enabled⟩]
        | none => savedStates)
      acc) =
      acc ++ ids.filterMap fun extId =>
        (world.find? fun e => e.id == extId).map fun e => ⟨extId, e.enabled⟩ := by
  induction ids generalizing acc with
  | nil => simp
  | cons i t ih =>
      cases hf : world.find? fun e => e.id == i with
      | none => simp [hf, ih]
      | some e => simp [hf, ih]

/-- Characterization of the snapshot: one entry per non-`keep` config whose id
the enumeration reports, in config-list order, holding the reported enabled
flag; unreported ids are omitted. -/
theorem saveCurrentStates_eq (world : List Ext)
    (cfgs : List ExtensionStateConfig) :
    saveCurrentStates world cfgs =
      (cfgs.filter fun cfg => !(cfg.targetState == TargetState.keep)).filterMap
        fun cfg =>
          (world.find? fun e => e.id == cfg.extensionId).map
            fun e => ⟨cfg.extensionId, e.enabled⟩ := by
  unfold saveCurrentStates
  by_cases h :
      ((cfgs.filter fun config => !(config.targetState == TargetState.keep)).map
        fun config => config.extensionId).isEmpty = true
  · rw [List.isEmpty_iff, List.map_eq_nil_iff] at h
    simp [h]
  · simp only [h, if_false]
    rw [saveFold_go, List.filterMap_map]
    rfl

/-- After any apply, the applied profile is the recorded active one. -/
theorem apply_active (p : ProfileGroup) (url : String) (s : Sys) :
    (applyProfileStates p url s).state.activeProfileId = some p.id := by
  unfold applyProfileStates
  split <;> (dsimp only; split <;> simp_all [beq_iff_eq])

/-- Unfolding of `applyProfileStates` from an Idle state: no restore runs, the
snapshot is taken from the current controller world, the non-`keep` targets
are applied, and the new state is committed. -/
theorem apply_from_idle (p : ProfileGroup) (url : String) (s : Sys)
    (hs : s.state = idleState) :
    applyProfileStates p url s =
      { applyStatesLoop p.extensionStates
          (saveCurrentStatesRun p.extensionStates s).2 with
        state :=
          { activeProfileId := some p.id
            savedStates := saveCurrentStates s.ctrl.exts p.extensionStates
            lastMatchedUrl := some url } } := by
  unfold applyProfileStates
  simp [hs, idleState, truthy, beq_iff_eq, saveRun_fst]

/-! ## Claim theorems -/

/-- C7: host-wildcard compilation semantics — `*.example.com` (and equally
`.example.com`) accepts `example.com`, `sub.example.com` and
`a.b.example.com` and rejects `notexample.com`; `**.example.com` rejects the
bare `example.com` but accepts `sub.example.com` and `a.b.example.com`;
`example.*` accepts `example.com`, `example.org` and the multi-label
`example.co.uk`; the match is anchored over the whole host string (witnessed
by the rejection of a host that merely extends the pattern on either
side). -/
theorem c7_host_wildcard_semantics :
    rxMatch (hostWildcardToRegex "*.example.com") "example.com" = true ∧
    rxMatch (hostWildcardToRegex "*.example.com") "sub.example.com" = true ∧
    rxMatch (hostWildcardToRegex "*.example.com") "a.b.example.com" = true ∧
    rxMatch (hostWildcardToRegex "*.example.com") "notexample.com" = false ∧
    rxMatch (hostWildcardToRegex ".example.com") "example.com" = true ∧
    rxMatch (hostWildcardToRegex ".example.com") "sub.example.com" = true ∧
    rxMatch (hostWildcardToRegex ".example.com") "a.b.example.com" = true ∧
    rxMatch (hostWildcardToRegex ".example.com") "notexample.com" = false ∧
    rxMatch (hostWildcardToRegex "**.example.com") "example.com" = false ∧
    rxMatch (hostWildcardToRegex "**.example.com") "sub.example.com" = true ∧
    rxMatch (hostWildcardToRegex "**.example.com") "a.b.example.com" = true ∧
    rxMatch (hostWildcardToRegex "example.*") "example.com" = true ∧
    rxMatch (hostWildcardToRegex "example.*") "example.org" = true ∧
    rxMatch (hostWildcardToRegex "example.*") "example.co.uk" = true ∧
    rxMatch (hostWildcardToRegex "*.example.com") "example.common" = false ∧
    rxMatch (hostWildcardToRegex "example.*") "wexample.com" = false := by
  decide

/-- C8: `validatePattern` returns a non-empty error string exactly when the
pattern is empty or whitespace-only (for every type) or when the type is
regex and the pattern fails to compile; every other input is accepted; the
four concrete cases of the claim are evaluated explicitly.  (The embedding is
a total pure function, so it can neither throw nor mutate state.) -/
theorem c8_validatePattern_policy :
    (∀ p t, (validatePattern p t).isSome =
      (p.toList.all Char.isWhitespace ||
        (t == MatchType.regex && !regexCompiles p))) ∧
    (∀ p t, (match validatePattern p t with
             | some e => !(e == "")
             | none => true) = true) ∧
    (validatePattern "" MatchType.hostWildcard).isSome = true ∧
    (validatePattern "[invalid" MatchType.regex).isSome = true ∧
    validatePattern "*.example.com" MatchType.hostWildcard = none ∧
    validatePattern "^valid$" MatchType.regex = none := by
  refine ⟨?_, ?_, by decide, by decide, by decide, by decide⟩
  · intro p t
    unfold validatePattern
    cases hw : p.toList.all Char.isWhitespace with
    | true =>
        have hw' := List.all_eq_true.mp hw
        simp [hw, hw']
    | false =>
        have hw' : ¬ ∀ x ∈ p.toList, x.isWhitespace = true := by
          rw [← List.all_eq_true, hw]
          simp
        cases t <;> simp [hw, hw'] <;>
          cases hr : regexCompiles p <;> simp [hr]
  · intro p t
    unfold validatePattern
    cases hw : p.toList.all Char.isWhitespace with
    | true =>
        have hw' := List.all_eq_true.mp hw
        simp [hw']
    | false =>
        have hw' : ¬ ∀ x ∈ p.toList, x.isWhitespace = true := by
          rw [← List.all_eq_true, hw]
          simp
        cases t <;> simp [hw'] <;>
          cases hr : regexCompiles p <;> simp [hr]

/-- C6: a profile with an empty condition list never matches any URL (even
when enabled), and consequently `findMatchingProfile` never returns a profile
whose condition list is empty. -/
theorem c6_empty_conditions_never_match (url : String) (p : ProfileGroup)
    (hp : p.conditions = []) (u : String) (ps : List ProfileGroup)
    (q : ProfileGroup) (hq : findMatchingProfile u ps = some q) :
    matchProfile url p = false ∧ q.conditions.isEmpty = false := by
  constructor
  · simp [matchProfile, hp]
  · unfold findMatchingProfile at hq
    have hm : matchProfile u q = true := List.find?_some hq
    have hany : q.conditions.any (fun c => matchUrl u c) = true :=
      ((Bool.and_eq_true _ _).mp hm).2
    cases hqc : q.conditions with
    | nil => rw [hqc] at hany; simp at hany
    | cons a t => rfl

/-- Witness for C6: the empty-conditions profile does not match the example
URL, and the profile actually returned by the resolver in a concrete run has
a non-empty condition list. -/
theorem c6_empty_conditions_never_match_witness :
    matchProfile "https://example.com/" emptyConditionsProfile = false ∧
    highPriorityProfile.conditions.isEmpty = false :=
  c6_empty_conditions_never_match "https://example.com/" emptyConditionsProfile
    rfl "https://example.com/" [highPriorityProfile] highPriorityProfile
    (by decide)

/-- C2: same-profile idempotence — applying the same profile again only
updates `lastMatchedUrl`; the equality of whole system records shows that the
active id and snapshot, the controller world, and the request log (so neither
a snapshot read nor a state write) are all unchanged. -/
theorem c2_same_profile_idempotent (p : ProfileGroup) (url1 url2 : String)
    (s0 : Sys) :
    applyProfileStates p url2 (applyProfileStates p url1 s0) =
      { applyProfileStates p url1 s0 with
        state :=
          { (applyProfileStates p url1 s0).state with
            lastMatchedUrl := some url2 } } := by
  have hact := apply_active p url1 s0
  set s1 := applyProfileStates p url1 s0 with hs1
  unfold applyProfileStates
  simp [hact]

/-- C4 (amended): `restoreOriginalStates` always ends Idle; when the recorded
active id is `none` or the empty string (which the JS truthiness check treats
as "no active profile") or the snapshot is empty, it is a direct reset that
issues no controller request and changes nothing but the state; otherwise it
issues exactly one set-request per saved state, in order. -/
theorem c4_restore_amended (s : Sys) :
    (restoreOriginalStates s).state = idleState ∧
    (if truthy s.state.activeProfileId = false ∨ s.state.savedStates = []
     then restoreOriginalStates s = { s with state := idleState }
     else (restoreOriginalStates s).log =
        s.log ++ s.state.savedStates.map
          fun sv => CtrlCall.set sv.extensionId sv.wasEnabled) := by
  refine ⟨restore_state s, ?_⟩
  split
  · next h =>
      unfold restoreOriginalStates
      rcases h with h | h
      · simp [h]
      · simp [h]
  · next h =>
      push_neg at h
      exact restore_log s (by simpa using h.1)

/-- Counterexample to C4 as stated: in the reachable state left by applying
`emptyIdProfile` from Idle, a profile is recorded active (`some ""`) and the
snapshot is non-empty, yet `restoreOriginalStates` issues no controller
request at all and leaves the controller world untouched. -/
theorem c4_counterexample :
    sysActiveEmptyId.state.activeProfileId.isSome = true ∧
    sysActiveEmptyId.state.savedStates.isEmpty = false ∧
    (restoreOriginalStates sysActiveEmptyId).log.drop
      sysActiveEmptyId.log.length = [] ∧
    (restoreOriginalStates sysActiveEmptyId).ctrl = sysActiveEmptyId.ctrl := by
  decide

/-- C1 (amended): round trip from Idle, for a profile whose id is non-empty —
after `applyProfileStates p url` followed by `restoreOriginalStates`, the
shared state is Idle again, and for every non-`keep` config whose component
the controller reported, the restore phase (the log grown after the apply)
contains a request setting that component back to exactly the enabled value
the controller reported immediately before the apply. -/
theorem c1_round_trip_amended (p : ProfileGroup) (url : String)
    (ctrl : Controller) (hp : p.id ≠ "") :
    (restoreOriginalStates (applyProfileStates p url (Sys.start ctrl))).state =
      idleState ∧
    (p.extensionStates.filter fun c => !(c.targetState == TargetState.keep)).all
      (fun c =>
        match ctrl.exts.find? fun x => x.id == c.extensionId with
        | some e =>
            ((restoreOriginalStates
                (applyProfileStates p url (Sys.start ctrl))).log.drop
              (applyProfileStates p url (Sys.start ctrl)).log.length).contains
              (CtrlCall.set c.extensionId e.enabled)
        | none => true) = true := by
  refine ⟨restore_state _, ?_⟩
  have h1 := apply_from_idle p url (Sys.start ctrl) rfl
  set s1 := applyProfileStates p url (Sys.start ctrl) with hs1
  have hact : s1.state.activeProfileId = some p.id := by rw [h1]
  have htr : truthy s1.state.activeProfileId = true := by
    rw [hact]
    simp [truthy, hp]
  have hsnap : s1.state.savedStates =
      saveCurrentStates ctrl.exts p.extensionStates := by
    rw [h1]
    rfl
  have hdrop : (restoreOriginalStates s1).log.drop s1.log.length =
      s1.state.savedStates.map
        (fun sv => CtrlCall.set sv.extensionId sv.wasEnabled) := by
    rw [restore_log s1 htr]
    exact List.drop_left _ _
  rw [List.all_eq_true]
  intro c hc
  cases hfind : ctrl.exts.find? fun x => x.id == c.extensionId with
  | none => simp
  | some e =>
      have hmem : CtrlCall.set c.extensionId e.enabled ∈
          (saveCurrentStates ctrl.exts p.extensionStates).map
            (fun sv => CtrlCall.set sv.extensionId sv.wasEnabled) := by
        rw [saveCurrentStates_eq]
        refine List.mem_map.mpr ⟨⟨c.extensionId, e.enabled⟩, ?_, rfl⟩
        exact List.mem_filterMap.mpr ⟨c, hc, by rw [hfind]; rfl⟩
      rw [hdrop, hsnap]
      simpa using hmem

/-- Witness for C1 at a concrete profile, URL and controller world. -/
theorem c1_round_trip_amended_witness :
    (restoreOriginalStates
      (applyProfileStates c1Profile "https://example.com/"
        (Sys.start c1Controller))).state = idleState ∧
    (c1Profile.extensionStates.filter
      fun c => !(c.targetState == TargetState.keep)).all
      (fun c =>
        match c1Controller.exts.find? fun x => x.id == c.extensionId with
        | some e =>
            ((restoreOriginalStates
                (applyProfileStates c1Profile "https://example.com/"
                  (Sys.start c1Controller))).log.drop
              (applyProfileStates c1Profile "https://example.com/"
                (Sys.start c1Controller)).log.length).contains
              (CtrlCall.set c.extensionId e.enabled)
        | none => true) = true :=
  c1_round_trip_amended c1Profile "https://example.com/" c1Controller
    (by decide)

/-- Counterexample to C1 as stated: for the profile whose id is the empty
string, the apply really toggles `x` (the controller world ends with `x`
disabled) and snapshots it, yet the subsequent restore issues no request at
all — the JS truthiness check in `restoreOriginalStates` treats the
empty-string id as "nothing to restore" — so `x` is not set back to its
pre-apply value. -/
theorem c1_counterexample :
    emptyIdProfile.extensionStates = [⟨"x", TargetState.disable⟩] ∧
    c1Controller.exts.find? (fun x => x.id == "x") = some ⟨"x", true⟩ ∧
    (applyProfileStates emptyIdProfile "https://example.com/"
      (Sys.start c1Controller)).ctrl.exts = [⟨"x", false⟩] ∧
    ((restoreOriginalStates
        (applyProfileStates emptyIdProfile "https://example.com/"
          (Sys.start c1Controller))).log.drop
      (applyProfileStates emptyIdProfile "https://example.com/"
        (Sys.start c1Controller)).log.length).contains
      (CtrlCall.set "x" true) = false ∧
    (restoreOriginalStates
      (applyProfileStates emptyIdProfile "https://example.com/"
        (Sys.start c1Controller))).ctrl.exts = [⟨"x", false⟩] := by
  decide

/-- C3 (amended): switching from an active profile `A` whose id is non-empty
to a different profile `B` first performs the full restore procedure for
`A`'s saved snapshot (one set-request per saved state, back to its
`wasEnabled` value, appended to the log), then snapshots and applies `B`'s
targets against the restored world, and commits
`{activeProfileId := B.id, savedStates := B's snapshot,
lastMatchedUrl := url}`. -/
theorem c3_switch_amended (A B : ProfileGroup) (url : String) (s : Sys)
    (hA : s.state.activeProfileId = some A.id) (h0 : A.id ≠ "")
    (hne : A.id ≠ B.id) :
    applyProfileStates B url s =
      { applyStatesLoop B.extensionStates
          (saveCurrentStatesRun B.extensionStates
            (restoreOriginalStates s)).2 with
        state :=
          { activeProfileId := some B.id
            savedStates :=
              saveCurrentStates (restoreOriginalStates s).ctrl.exts
                B.extensionStates
            lastMatchedUrl := some url } } ∧
    (restoreOriginalStates s).log =
      s.log ++ s.state.savedStates.map
        fun sv => CtrlCall.set sv.extensionId sv.wasEnabled := by
  have htr : truthy s.state.activeProfileId = true := by
    rw [hA]
    simp [truthy, h0]
  refine ⟨?_, restore_log s htr⟩
  have hcond : (truthy s.state.activeProfileId &&
      !(s.state.activeProfileId == some B.id)) = true := by
    rw [hA] at htr ⊢
    simp [htr, hne]
  unfold applyProfileStates
  simp only [hcond, if_true]
  have hidle : (restoreOriginalStates s).state.activeProfileId = none := by
    rw [restore_state]
    rfl
  simp [hidle, saveRun_fst]

/-- Witness for C3 at concrete profiles and a reachable active state. -/
theorem c3_switch_amended_witness :
    applyProfileStates profileB "u2" sysActiveA =
      { applyStatesLoop profileB.extensionStates
          (saveCurrentStatesRun profileB.extensionStates
            (restoreOriginalStates sysActiveA)).2 with
        state :=
          { activeProfileId := some profileB.id
            savedStates :=
              saveCurrentStates (restoreOriginalStates sysActiveA).ctrl.exts
                profileB.extensionStates
            lastMatchedUrl := some "u2" } } ∧
    (restoreOriginalStates sysActiveA).log =
      sysActiveA.log ++ sysActiveA.state.savedStates.map
        fun sv => CtrlCall.set sv.extensionId sv.wasEnabled :=
  c3_switch_amended profileA profileB "u2" sysActiveA (by decide) (by decide)
    (by decide)

/-- Counterexample to C3 as stated: starting from the reachable state in
which the profile with the empty-string id is active with `x` snapshotted
(and toggled off), switching to the distinct profile `b` performs no restore
at all — the request log gains no `set x true` — because the truthiness guard
in `applyProfileStates` skips the restore for a falsy active id. -/
theorem c3_counterexample :
    sysActiveEmptyId.state.activeProfileId = some emptyIdProfile.id ∧
    (emptyIdProfile.id == profileB.id) = false ∧
    sysActiveEmptyId.state.savedStates = [⟨"x", true⟩] ∧
    ((applyProfileStates profileB "u2" sysActiveEmptyId).log.drop
      sysActiveEmptyId.log.length).contains (CtrlCall.set "x" true) = false ∧
    (applyProfileStates profileB "u2" sysActiveEmptyId).ctrl.exts =
      [⟨"x", false⟩] := by
  decide

/-- In a list that is pairwise-descending by priority, the first element
satisfying `find?`'s predicate has maximal priority among all satisfying
elements. -/
theorem find?_max_of_pairwise (url : String) (l : List ProfileGroup)
    (hl : l.Pairwise priorityGE) (p : ProfileGroup)
    (hp : l.find? (fun q => matchProfile url q) = some p) :
    ∀ q ∈ l, matchProfile url q = true → q.priority ≤ p.priority := by
  induction l with
  | nil => simp at hp
  | cons a t ih =>
      intro q hq hmq
      rcases List.mem_cons.mp hq with rfl | hqt
      · rw [List.find?_cons_of_pos _ hmq] at hp
        cases hp
        exact le_refl _
      · cases hpa : matchProfile url a with
        | true =>
            rw [List.find?_cons_of_pos _ hpa] at hp
            cases hp
            exact (List.pairwise_cons.mp hl).1 q hqt
        | false =>
            rw [List.find?_cons_of_neg _ (by simp [hpa])] at hp
            exact ih (List.pairwise_cons.mp hl).2 hp q hqt hmq

/-- C5: `findMatchingProfile` returns a profile only if it matches (hence is
enabled) and belongs to the input list, and that profile has maximal priority
among all matching profiles; when no enabled profile matches, the result is
`none` — a normal outcome, captured as an equality with the all-fail check;
and on the concrete priority-1 / priority-10 fixture pair it returns the
priority-10 profile. -/
theorem c5_findMatchingProfile_resolution (url : String)
    (profiles : List ProfileGroup) (p : ProfileGroup) (u : String)
    (ps : List ProfileGroup)
    (h : findMatchingProfile url profiles = some p) :
    matchProfile url p = true ∧ p.enabled = true ∧
    profiles.contains p = true ∧
    profiles.all
      (fun q => !matchProfile url q || decide (q.priority ≤ p.priority)) =
      true ∧
    (findMatchingProfile u ps).isNone = ps.all (fun q => !matchProfile u q) ∧
    findMatchingProfile "https://example.com/"
      [lowPriorityProfile, highPriorityProfile] = some highPriorityProfile := by
  unfold findMatchingProfile at h
  have hm : matchProfile url p = true := List.find?_some h
  have hmemSorted : p ∈ profiles.insertionSort priorityGE :=
    List.mem_of_find?_eq_some h
  have hmem : p ∈ profiles := (List.mem_insertionSort priorityGE).mp hmemSorted
  refine ⟨hm, ((Bool.and_eq_true _ _).mp hm).1, by simpa using hmem, ?_, ?_,
    by decide⟩
  · rw [List.all_eq_true]
    intro q hq
    cases hmq : matchProfile url q with
    | false => simp
    | true =>
        have hle : q.priority ≤ p.priority :=
          find?_max_of_pairwise url (profiles.insertionSort priorityGE)
            (List.sorted_insertionSort priorityGE profiles) p h q
            ((List.mem_insertionSort priorityGE).mpr hq) hmq
        simp [hle]
  · unfold findMatchingProfile
    cases hf : (ps.insertionSort priorityGE).find? (fun q => matchProfile u q)
      with
    | none =>
        have hall : ∀ q ∈ ps, matchProfile u q = false := by
          intro q hq
          have := List.find?_eq_none.mp hf q
            ((List.mem_insertionSort priorityGE).mpr hq)
          simpa using this
        have : ps.all (fun q => !matchProfile u q) = true := by
          rw [List.all_eq_true]
          intro q hq
          simp [hall q hq]
        simp [this]
    | some r =>
        have hr : matchProfile u r = true := List.find?_some hf
        have hrmem : r ∈ ps :=
          (List.mem_insertionSort priorityGE).mp (List.mem_of_find?_eq_some hf)
        have : ps.all (fun q => !matchProfile u q) = false := by
          cases hall : ps.all (fun q => !matchProfile u q) with
          | false => rfl
          | true =>
              have := List.all_eq_true.mp hall r hrmem
              rw [hr] at this
              simp at this
        simp [this]

/-- Witness for C5 at the concrete fixture pair of the claim. -/
theorem c5_findMatchingProfile_resolution_witness :
    matchProfile "https://example.com/" highPriorityProfile = true ∧
    highPriorityProfile.enabled = true ∧
    [lowPriorityProfile, highPriorityProfile].contains highPriorityProfile =
      true ∧
    [lowPriorityProfile, highPriorityProfile].all
      (fun q => !matchProfile "https://example.com/" q ||
        decide (q.priority ≤ highPriorityProfile.priority)) = true ∧
    (findMatchingProfile "https://gitlab.com/" []).isNone =
      ([] : List ProfileGroup).all
        (fun q => !matchProfile "https://gitlab.com/" q) ∧
    findMatchingProfile "https://example.com/"
      [lowPriorityProfile, highPriorityProfile] = some highPriorityProfile :=
  c5_findMatchingProfile_resolution "https://example.com/"
    [lowPriorityProfile, highPriorityProfile] highPriorityProfile
    "https://gitlab.com/" [] (by decide)

/-- C10: snapshot coverage and its gap — the snapshot holds exactly one entry
per non-`keep` config whose id the controller's enumeration reports, in
config-list order, recording the reported enabled flag (first conjunct, the
general characterization); and for a non-`keep` config whose id the
controller does not report, the snapshot omits the component even though the
apply still issues its target-state request, so the restore phase issues no
request for that component at all. -/
theorem c10_snapshot_coverage_gap (p : ProfileGroup) (url : String)
    (ctrl : Controller) (c : ExtensionStateConfig) (world : List Ext)
    (cfgs : List ExtensionStateConfig) (hc : c ∈ p.extensionStates)
    (hk : ¬c.targetState = TargetState.keep)
    (hnf : ctrl.exts.find? (fun x => x.id == c.extensionId) = none) :
    saveCurrentStates world cfgs =
      (cfgs.filter fun cfg => !(cfg.targetState == TargetState.keep)).filterMap
        (fun cfg =>
          (world.find? fun e => e.id == cfg.extensionId).map
            fun e => ⟨cfg.extensionId, e.enabled⟩) ∧
    (applyProfileStates p url (Sys.start ctrl)).state.savedStates.all
      (fun sv => !(sv.extensionId == c.extensionId)) = true ∧
    (applyProfileStates p url (Sys.start ctrl)).log.contains
      (CtrlCall.set c.extensionId (c.targetState == TargetState.enable)) =
      true ∧
    ((restoreOriginalStates (applyProfileStates p url (Sys.start ctrl))).log.drop
      (applyProfileStates p url (Sys.start ctrl)).log.length).all
      (fun call =>
        match call with
        | CtrlCall.set i _ => !(i == c.extensionId)
        | CtrlCall.getAll => true) = true := by
  have h1 := apply_from_idle p url (Sys.start ctrl) rfl
  set s1 := applyProfileStates p url (Sys.start ctrl) with hs1
  have hsnap : s1.state.savedStates =
      saveCurrentStates ctrl.exts p.extensionStates := by
    rw [h1]
    rfl
  have hact : s1.state.activeProfileId = some p.id := by rw [h1]
  have homit : ∀ sv ∈ saveCurrentStates ctrl.exts p.extensionStates,
      (sv.extensionId == c.extensionId) = false := by
    intro sv hsv
    rw [saveCurrentStates_eq] at hsv
    obtain ⟨a, _, hfa⟩ := List.mem_filterMap.mp hsv
    obtain ⟨e, hfe, hsve⟩ := Option.map_eq_some'.mp hfa
    rw [beq_eq_false_iff_ne]
    intro hcontra
    rw [← hsve] at hcontra
    simp only at hcontra
    rw [hcontra] at hfe
    rw [hnf] at hfe
    cases hfe
  refine ⟨saveCurrentStates_eq world cfgs, ?_, ?_, ?_⟩
  · rw [hsnap, List.all_eq_true]
    intro sv hsv
    simpa using homit sv hsv
  · have hlog : s1.log =
        (saveCurrentStatesRun p.extensionStates (Sys.start ctrl)).2.log ++
          (p.extensionStates.filter
            fun cfg => !(cfg.targetState == TargetState.keep)).map
            fun cfg =>
              CtrlCall.set cfg.extensionId
                (cfg.targetState == TargetState.enable) := by
      rw [h1]
      exact applyLoop_log _ _
    have hcmem : CtrlCall.set c.extensionId
        (c.targetState == TargetState.enable) ∈ s1.log := by
      rw [hlog]
      refine List.mem_append_right _ (List.mem_map.mpr ⟨c, ?_, rfl⟩)
      exact List.mem_filter.mpr ⟨hc, by simp [hk]⟩
    simpa using hcmem
  · by_cases hid : p.id = ""
    · have htr : truthy s1.state.activeProfileId = false := by
        rw [hact, hid]
        rfl
      have : restoreOriginalStates s1 = { s1 with state := idleState } := by
        unfold restoreOriginalStates
        simp [htr]
      rw [this]
      simp [List.drop_length]
    · have htr : truthy s1.state.activeProfileId = true := by
        rw [hact]
        simp [truthy, hid]
      have hdrop : (restoreOriginalStates s1).log.drop s1.log.length =
          s1.state.savedStates.map
            (fun sv => CtrlCall.set sv.extensionId sv.wasEnabled) := by
        rw [restore_log s1 htr]
        exact List.drop_left _ _
      rw [hdrop, hsnap, List.all_eq_true]
      intro call hcall
      obtain ⟨sv, hsv, rfl⟩ := List.mem_map.mp hcall
      simpa using homit sv hsv

/-- Witness for C10: the `ghost` config is non-`keep`, absent from the
controller's enumeration, omitted from the snapshot, still requested by the
apply, and never touched by the restore. -/
theorem c10_snapshot_coverage_gap_witness :
    saveCurrentStates c1Controller.exts ghostProfile.extensionStates =
      (ghostProfile.extensionStates.filter
        fun cfg => !(cfg.targetState == TargetState.keep)).filterMap
        (fun cfg =>
          (c1Controller.exts.find? fun e => e.id == cfg.extensionId).map
            fun e => ⟨cfg.extensionId, e.enabled⟩) ∧
    (applyProfileStates ghostProfile "u" (Sys.start c1Controller)).state.savedStates.all
      (fun sv => !(sv.extensionId == "ghost")) = true ∧
    (applyProfileStates ghostProfile "u" (Sys.start c1Controller)).log.contains
      (CtrlCall.set "ghost" true) = true ∧
    ((restoreOriginalStates
        (applyProfileStates ghostProfile "u" (Sys.start c1Controller))).log.drop
      (applyProfileStates ghostProfile "u" (Sys.start c1Controller)).log.length).all
      (fun call =>
        match call with
        | CtrlCall.set i _ => !(i == "ghost")
        | CtrlCall.getAll => true) = true :=
  c10_snapshot_coverage_gap ghostProfile "u" c1Controller ⟨"ghost", .enable⟩
    c1Controller.exts ghostProfile.extensionStates (by decide) (by decide)
    (by decide)

end AutoExt
